import Mathlib

/-!
Verification of the leela-chess coordination core: the coordinator's
work-assignment dispatcher, the content-addressed network-artifact store,
and the worker client's orchestration loop (`go/src/client/main.go`).

The server's handler code is not part of the sources at hand (only its test
suite is), so the server-side operations are modelled from the specification,
with their observable behaviour pinned wherever the test suite asserts it
(response JSON bodies, status codes, row contents). The worker loop is a
direct shallow embedding of `main.go`: external calls (HTTP requests, blob
downloads, engine subprocesses) become oracle fields of a `WorkerEnv`.
-/

set_option autoImplicit false

namespace LeelaChess

/-- A network row: `db.Network{Sha, Path}` plus the games-played counter
checked by `TestUploadGameNewUser`. -/
structure Network where
  id : Nat
  sha : String
  path : String
  gamesPlayed : Nat
  deriving Repr, DecidableEq

/-- A training run: `db.TrainingRun{Description, BestNetwork, Active}`. -/
structure TrainingRun where
  id : Nat
  description : String
  bestNetworkId : Nat
  active : Bool
  deriving Repr, DecidableEq

/-- A match row: `db.Match{TrainingRunID, Parameters, CandidateID,
CurrentBestID, Done}`. -/
structure Match where
  id : Nat
  trainingRunId : Nat
  parameters : String
  candidateId : Nat
  currentBestId : Nat
  done : Bool
  deriving Repr, DecidableEq

/-- A match game row; `result` is `none` while the game is pending. -/
structure MatchGame where
  id : Nat
  matchId : Nat
  result : Option Int
  pgn : String
  done : Bool
  deriving Repr, DecidableEq

/-- A worker identity row: `db.User{Username, Password}` and the last-seen
protocol version. -/
structure User where
  id : Nat
  username : String
  password : String
  version : Nat
  deriving Repr, DecidableEq

/-- A stored training game, created by a successful upload-game call. -/
structure TrainingGame where
  id : Nat
  userId : Nat
  trainingRunId : Nat
  networkId : Nat
  pgn : String
  deriving Repr, DecidableEq

/-- The coordinator's persistent state: the five row tables plus the blob
store, which maps a content hash to the stored (decompressed) bytes. -/
structure ServerState where
  users : List User
  trainingRuns : List TrainingRun
  networks : List Network
  matchList : List Match
  matchGames : List MatchGame
  trainingGames : List TrainingGame
  blobs : List (String × List Nat)
  deriving Repr, DecidableEq

/-- A transport codec (gzip in the implementation), kept abstract: the store
only ever composes `compress` and `decompress`. -/
structure Codec where
  compress : List Nat → List Nat
  decompress : List Nat → List Nat

/-- A NextWork request: identity, credential, protocol version (absent for
legacy workers) and request-context parameters. -/
structure NextWorkRequest where
  user : String
  password : String
  version : Option Nat
  contextParams : String
  deriving Repr, DecidableEq

/-- The dispatcher's response. The match form carries `flip : Option Bool`
so that a JSON body with no flip key is representable as `none`
(`TestNextGameUserMatch` asserts the exact body
`type/matchGameId/sha/candidateSha/params` with no flip key). -/
inductive WorkResponse where
  | train (trainingId : Nat) (networkId : Nat) (sha : String) (params : String)
  | matchWork (matchGameId : Nat) (sha : String) (candidateSha : String)
      (params : String) (flip : Option Bool)
  | failure
  deriving Repr, DecidableEq

/-- Minimum protocol version required for match work; the test suite sends
`version=2` for the match-capable requests. -/
def minProtocolVersion : Nat := 2

/-- The unique active training run, if any (`Active: true` flag convention). -/
def activeRun (s : ServerState) : Option TrainingRun :=
  s.trainingRuns.find? (fun r => r.active)

/-- Look up a network row by primary key. -/
def findNetworkById (s : ServerState) (nid : Nat) : Option Network :=
  s.networks.find? (fun n => n.id = nid)

/-- The first open (done=false) match belonging to the given training run. -/
def openMatchFor (s : ServerState) (runId : Nat) : Option Match :=
  s.matchList.find? (fun m => m.trainingRunId = runId && !m.done)

/-- Next free match-game primary key. -/
def nextMatchGameId (s : ServerState) : Nat :=
  (s.matchGames.map (fun g => g.id)).foldr max 0 + 1

/-- Next free user primary key. -/
def nextUserId (s : ServerState) : Nat :=
  (s.users.map (fun u => u.id)).foldr max 0 + 1

/-- Next free network primary key. -/
def nextNetworkId (s : ServerState) : Nat :=
  (s.networks.map (fun n => n.id)).foldr max 0 + 1

/-- Next free training-game primary key. -/
def nextTrainingGameId (s : ServerState) : Nat :=
  (s.trainingGames.map (fun g => g.id)).foldr max 0 + 1

/-- Modelled from the spec: the Worker get-or-create on identifying name
(server handler absent from the sources). Returns the (possibly extended)
state and the worker's id, or `none` on a credential mismatch with an
existing row (AuthFailure). -/
def getOrCreateUser (s : ServerState) (username password : String)
    (version : Nat) : ServerState × Option Nat :=
  match s.users.find? (fun u => u.username = username) with
  | some u => if u.password = password then (s, some u.id) else (s, none)
  | none =>
      let uid := nextUserId s
      ({ s with users := s.users ++ [⟨uid, username, password, version⟩] },
       some uid)

/-- Modelled from the spec: the Work Dispatcher's `NextWork` (the server's
next-game handler is absent from the sources; §4.1 of the spec gives the
algorithm and the `TestNextGame*` assertions pin every response body):
a request whose version is absent or below the minimum gets the active
run's best network as train work unconditionally; otherwise an open match
for the active run, if any, gets a freshly allocated MatchGame; otherwise
train work with request-context parameters. The match response carries no
flip key (`flip := none`), exactly as `TestNextGameUserMatch` asserts. -/
def nextWork (s : ServerState) (req : NextWorkRequest) :
    ServerState × WorkResponse :=
  match activeRun s with
  | none => (s, .failure)
  | some run =>
    match findNetworkById s run.bestNetworkId with
    | none => (s, .failure)
    | some best =>
      if (req.version.getD 0) < minProtocolVersion then
        (s, .train run.id best.id best.sha "")
      else
        match getOrCreateUser s req.user req.password (req.version.getD 0) with
        | (s₁, none) => (s₁, .failure)
        | (s₁, some _) =>
          match openMatchFor s₁ run.id with
          | some m =>
            match findNetworkById s₁ m.currentBestId,
                  findNetworkById s₁ m.candidateId with
            | some cb, some cand =>
              let gid := nextMatchGameId s₁
              ({ s₁ with matchGames := s₁.matchGames ++ [⟨gid, m.id, none, "", false⟩] },
               .matchWork gid cb.sha cand.sha m.parameters none)
            | _, _ => (s₁, .failure)
          | none => (s₁, .train run.id best.id best.sha req.contextParams)

/-- Outcome of a network-artifact upload. -/
inductive UploadOutcome where
  | uploaded (networkId : Nat)
  | alreadyExists
  deriving Repr, DecidableEq

/-- Modelled from the spec: the Network Artifact Store's `Upload` (server
handler absent from the sources; §4.3): decompress the transport blob, hash
the decompressed content, reject a duplicate hash with AlreadyExists before
any write, otherwise persist the content keyed by hash and create the
Network row. `hash` abstracts the hex-encoded content digest. -/
def uploadNetwork (hash : List Nat → String) (codec : Codec)
    (s : ServerState) (blob : List Nat) : ServerState × UploadOutcome :=
  let content := codec.decompress blob
  let h := hash content
  if s.networks.any (fun n => n.sha = h) then
    (s, .alreadyExists)
  else
    let nid := nextNetworkId s
    ({ s with networks := s.networks ++ [⟨nid, h, "networks/" ++ h, 0⟩],
              blobs := (h, content) :: s.blobs },
     .uploaded nid)

/-- Modelled from the spec: the store's `Download` (server handler absent
from the sources; §4.3): look the content up by hash and return it
re-compressed for transport. -/
def downloadNetwork (codec : Codec) (s : ServerState) (h : String) :
    Option (List Nat) :=
  match s.blobs.find? (fun p => p.1 = h) with
  | some p => some (codec.compress p.2)
  | none => none

/-- Outcome of an upload-game call. -/
inductive GameUploadOutcome where
  | ok
  | authFail
  | notFound
  deriving Repr, DecidableEq

/-- Modelled from the spec: `RecordGameUpload` (server handler absent from
the sources; §4.3): get-or-create the Worker by identity, look up the cited
network, persist the training game and increment that network's
games-played counter by exactly one. -/
def uploadGameServer (s : ServerState) (username password : String)
    (version : Nat) (trainingId networkId : Nat) (pgn : String) :
    ServerState × GameUploadOutcome :=
  match getOrCreateUser s username password version with
  | (s₁, none) => (s₁, .authFail)
  | (s₁, some uid) =>
    match findNetworkById s₁ networkId with
    | none => (s₁, .notFound)
    | some _ =>
      ({ s₁ with
          networks := s₁.networks.map (fun n =>
            if n.id = networkId then { n with gamesPlayed := n.gamesPlayed + 1 }
            else n),
          trainingGames := s₁.trainingGames ++
            [⟨nextTrainingGameId s₁, uid, trainingId, networkId, pgn⟩] },
       .ok)

/-- The games-played counter of the network with the given id. -/
def gamesPlayedOf (s : ServerState) (nid : Nat) : Option Nat :=
  (findNetworkById s nid).map (fun n => n.gamesPlayed)

/-- The client's decoded `NextGameResponse` struct (`main.go` reads `.Type`,
`.TrainingId`, `.NetworkId`, `.Sha`, `.CandidateSha`, `.Params`, `.Flip`);
a JSON body without a flip key decodes `Flip` to its zero value `false`. -/
structure NextGameResponse where
  wtype : String
  trainingId : Nat
  networkId : Nat
  sha : String
  candidateSha : String
  params : List String
  flip : Bool
  deriving Repr, DecidableEq

/-- Oracle for one pass of the worker loop: the outcome of each external
call `main.go` makes. `response = none` means `client.NextGame` returned a
transport error; `dl sha` tells whether `client.DownloadNetwork` for that
sha succeeds; `pipesOk` covers the `StdoutPipe`/`StderrPipe`/`Start` calls
in `launch`; `waitOk` is whether the training engine exits cleanly
(`c.Cmd.Wait`); `uploadOk` is the `uploadGame` HTTP round trip. -/
structure WorkerEnv where
  response : Option NextGameResponse
  dl : String → Bool
  cache : List String
  pipesOk : Bool
  waitOk : Bool
  uploadOk : Bool

/-- `getNetwork` from `main.go`: if the sha is already a file under
`networks/` return it at once; otherwise, when `clearOld` is set, delete the
whole `networks/` directory, then download. The local cache is the list of
cached shas; download failure leaves the (possibly cleared) cache and
reports failure. -/
def getNetwork (dl : String → Bool) (cache : List String) (sha : String)
    (clearOld : Bool) : List String × Bool :=
  if sha ∈ cache then (cache, true)
  else
    let cache1 := if clearOld then [] else cache
    if dl sha then (sha :: cache1, true) else (cache1, false)

/-- How one pass of the worker loop ends. `terminated` is `log.Fatal`
(the whole process exits); `backedOff` is a non-nil error returned to
`main`, which logs it and sleeps 30 seconds; `hung` is the match move loop
in `playMatch`, which has no exit condition; `completed` returns nil. -/
inductive CycleOutcome where
  | completed
  | backedOff
  | terminated
  | hung
  deriving Repr, DecidableEq

/-- Observable effects of one `nextGame` cycle: its outcome, the final
local network cache, how many engine processes were launched, how many
`getNetwork` fetches were attempted, how many report uploads were
attempted, and whether the produced training artifact was deleted during
reporting. -/
structure CycleResult where
  outcome : CycleOutcome
  cache : List String
  launches : Nat
  fetchCalls : Nat
  uploadAttempts : Nat
  artifactDeleted : Bool
  deriving Repr, DecidableEq

/-- `nextGame` from `main.go`, one pass of the worker loop. Match work:
fetch both networks without clearing (`clearOld=false` twice), then
`playMatch` launches two engines (`launch` calls `log.Fatal` on pipe/start
failure) and enters a move loop with no exit. Train work: fetch with
`clearOld=true`, `train` launches one engine and calls `log.Fatal` if
`Cmd.Wait` reports an abnormal exit, then `uploadGame`'s return value is
discarded and the cycle returns nil. Unknown work type: an error, before
any fetch or launch. -/
def nextGameCycle (env : WorkerEnv) : CycleResult :=
  match env.response with
  | none => ⟨.backedOff, env.cache, 0, 0, 0, false⟩
  | some r =>
    if r.wtype = "match" then
      let f1 := getNetwork env.dl env.cache r.sha false
      if f1.2 = false then ⟨.backedOff, f1.1, 0, 1, 0, false⟩
      else
        let f2 := getNetwork env.dl f1.1 r.candidateSha false
        if f2.2 = false then ⟨.backedOff, f2.1, 0, 2, 0, false⟩
        else if env.pipesOk = false then ⟨.terminated, f2.1, 1, 2, 0, false⟩
        else ⟨.hung, f2.1, 2, 2, 0, false⟩
    else if r.wtype = "train" then
      let f1 := getNetwork env.dl env.cache r.sha true
      if f1.2 = false then ⟨.backedOff, f1.1, 0, 1, 0, false⟩
      else if env.pipesOk = false then ⟨.terminated, f1.1, 1, 1, 0, false⟩
      else if env.waitOk = false then ⟨.terminated, f1.1, 1, 1, 0, false⟩
      else ⟨.completed, f1.1, 1, 1, 1, false⟩
    else ⟨.backedOff, env.cache, 0, 0, 0, false⟩

/-- What the `main` loop does after a cycle. A non-nil error: log it, sleep
30 seconds, continue. Nil: continue immediately. `log.Fatal` already exited
the process inside the cycle, and a hung cycle never returns. -/
inductive LoopAction where
  | exitProcess
  | sleepRetry (secs : Nat)
  | continueLoop
  | blockedForever
  deriving Repr, DecidableEq

/-- The `for` loop body of `main` in `main.go`, as a function of how the
cycle ended. -/
def mainStep : CycleOutcome → LoopAction
  | .terminated => .exitProcess
  | .backedOff => .sleepRetry 30
  | .completed => .continueLoop
  | .hung => .blockedForever

/-- The fixture state `SetupTest` builds: network 1 (sha "abcd"), one
active training run whose best network is network 1, and the user row
"defaut"/"1234". -/
def testState : ServerState where
  users := [⟨1, "defaut", "1234", 2⟩]
  trainingRuns := [⟨1, "Testing", 1, true⟩]
  networks := [⟨1, "abcd", "/tmp/network", 0⟩]
  matchList := []
  matchGames := []
  trainingGames := []
  blobs := []

/-- `initMatch(false)` on top of the fixture: candidate network 2
(sha "efgh") and one open match for training run 1. -/
def testStateOpenMatch : ServerState :=
  { testState with
      networks := testState.networks ++ [⟨2, "efgh", "/tmp/network2", 0⟩],
      matchList := [⟨1, 1, "[\"--visits 10\"]", 2, 1, false⟩] }

/-- `initMatch(true)`: the same match but already done. -/
def testStateDoneMatch : ServerState :=
  { testState with
      networks := testState.networks ++ [⟨2, "efgh", "/tmp/network2", 0⟩],
      matchList := [⟨1, 1, "[\"--visits 10\"]", 2, 1, true⟩] }

/-- The version-2 request the match tests send. -/
def reqV2 : NextWorkRequest := ⟨"default", "1234", some 2, ""⟩

/-- The legacy request of `TestNextGameNoUser`: no form fields at all. -/
def reqNoVersion : NextWorkRequest := ⟨"", "", none, ""⟩

/-- The flip field of a match assignment (`none` = no flip key in the
body), and `none` for the other response forms. -/
def matchFlip : WorkResponse → Option (Option Bool)
  | .matchWork _ _ _ _ f => some f
  | _ => none

/-- An identity transport codec, used to instantiate the store theorems. -/
def idCodec : Codec := ⟨fun b => b, fun b => b⟩

/-- A concrete content digest for instantiating the store theorems. -/
def listHash (c : List Nat) : String :=
  String.intercalate "," (c.map (fun n => toString n))

/-- A train assignment as the client decodes it. -/
def trainWorkResp : NextGameResponse := ⟨"train", 1, 1, "abcd", "", [], false⟩

/-- A cycle in which the training engine exits abnormally
(`c.Cmd.Wait` returns an error). -/
def envEngineCrash : WorkerEnv :=
  ⟨some trainWorkResp, fun _ => true, [], true, false, true⟩

/-- A cycle in which the next-work request itself fails (transport error). -/
def envNoResp : WorkerEnv := ⟨none, fun _ => true, [], true, true, true⟩

/-- A cycle in which everything succeeds except the training-data upload. -/
def envUploadFail : WorkerEnv :=
  ⟨some trainWorkResp, fun _ => true, [], true, true, false⟩

/-- A cycle whose assignment has an unknown work type. -/
def envUnknownType : WorkerEnv :=
  ⟨some ⟨"foo", 1, 1, "abcd", "", [], false⟩, fun _ => true, ["x"], true, true, true⟩

/-- Worker get-or-create touches only the user table: matches unchanged. -/
theorem getOrCreateUser_matchList (s : ServerState) (u p : String) (v : Nat) :
    ((getOrCreateUser s u p v).1).matchList = s.matchList := by
  unfold getOrCreateUser
  split <;> (try split) <;> rfl

/-- Worker get-or-create touches only the user table: match games unchanged. -/
theorem getOrCreateUser_matchGames (s : ServerState) (u p : String) (v : Nat) :
    ((getOrCreateUser s u p v).1).matchGames = s.matchGames := by
  unfold getOrCreateUser
  split <;> (try split) <;> rfl

/-- Worker get-or-create touches only the user table: networks unchanged. -/
theorem getOrCreateUser_networks (s : ServerState) (u p : String) (v : Nat) :
    ((getOrCreateUser s u p v).1).networks = s.networks := by
  unfold getOrCreateUser
  split <;> (try split) <;> rfl

/-- What a successful open-match lookup guarantees: the row belongs to the
state and is not done. -/
theorem openMatchFor_spec (s : ServerState) (rid : Nat) (m₀ : Match)
    (h : openMatchFor s rid = some m₀) :
    m₀ ∈ s.matchList ∧ m₀.done = false := by
  unfold openMatchFor at h
  have h1 := List.mem_of_find?_eq_some h
  have h2 := List.find?_some h
  simp only [Bool.and_eq_true, decide_eq_true_eq, Bool.not_eq_true'] at h2
  exact ⟨h1, h2.2⟩

/-- C1: a NextWork request whose protocolVersion is absent or below the
minimum supported value gets a train assignment referencing the active
TrainingRun's best Network with empty parameters, the state is unchanged
(so no MatchGame is allocated), and in particular no match assignment is
returned even when an open Match exists. -/
theorem version_gating (s : ServerState) (req : NextWorkRequest)
    (run : TrainingRun) (best : Network)
    (hrun : activeRun s = some run)
    (hbest : findNetworkById s run.bestNetworkId = some best)
    (hver : req.version.getD 0 < minProtocolVersion) :
    nextWork s req = (s, .train run.id best.id best.sha "") := by
  simp only [nextWork, hrun, hbest, if_pos hver]

/-- C1 witness: `TestNextGameNoUserMatch` — an open Match exists, the
request carries no version, and the response is the plain train form. -/
theorem version_gating_witness :
    nextWork testStateOpenMatch reqNoVersion =
      (testStateOpenMatch, .train 1 1 "abcd" "") :=
  version_gating testStateOpenMatch reqNoVersion ⟨1, "Testing", 1, true⟩
    ⟨1, "abcd", "/tmp/network", 0⟩ (by decide) (by decide) (by decide)

/-- C8 counterexample: in the exact situation of `TestNextGameUserMatch`
(open match, version-2 request) the dispatcher does return a match
assignment, but its flip component is `none` — the asserted response body
has no sideFlip key at all, so the claim that every match assignment
includes a sideFlip flag is false. -/
theorem match_flip_missing_counterexample :
    matchFlip (nextWork testStateOpenMatch reqV2).2 = some none := by decide

/-- C8 amended: every match assignment the dispatcher returns has no
sideFlip field (`flip = none`), and the worker's decoded flip therefore
takes the default value `false` for every allocation — sides never
alternate. -/
theorem nextWork_match_flip_absent (s : ServerState) (req : NextWorkRequest)
    (gid : Nat) (sha csha p : String) (f : Option Bool)
    (h : (nextWork s req).2 = .matchWork gid sha csha p f) :
    f = none ∧ f.getD false = false := by
  have hf : f = none := by
    unfold nextWork at h
    repeat' split at h
    all_goals simp_all
  exact ⟨hf, by rw [hf]; rfl⟩

/-- C8 amended witness: applied to the `TestNextGameUserMatch` scenario. -/
theorem nextWork_match_flip_absent_witness :
    (none : Option Bool) = none ∧ (none : Option Bool).getD false = false :=
  nextWork_match_flip_absent testStateOpenMatch reqV2 1 "abcd" "efgh"
    "[\"--visits 10\"]" none (by decide)

/-- The exclusion conjunction holds outright when the dispatcher neither
changed the match-game table nor answered with match work. -/
theorem exclusion_of_trivial (s s' : ServerState) (resp : WorkResponse)
    (m : Match) (hgames : s'.matchGames = s.matchGames)
    (hnm : ∀ gid sha csha p f, resp ≠ .matchWork gid sha csha p f) :
    (∀ g ∈ (s', resp).1.matchGames, g ∉ s.matchGames → g.matchId ≠ m.id) ∧
    (∀ gid sha csha p f, (s', resp).2 = .matchWork gid sha csha p f →
       ∃ g, g ∈ (s', resp).1.matchGames ∧ g.id = gid ∧ g.matchId ≠ m.id) ∧
    ((∀ m' ∈ s.matchList, m'.done = true) →
       ∀ gid sha csha p f, (s', resp).2 ≠ .matchWork gid sha csha p f) := by
  refine ⟨?_, ?_, ?_⟩
  · intro g hg hgn
    rw [hgames] at hg
    exact absurd hg hgn
  · intro gid sha csha p f h
    exact absurd h (hnm gid sha csha p f)
  · intro _ gid sha csha p f
    exact hnm gid sha csha p f

/-- C4: once a Match's done flag is true, `nextWork` never allocates a new
MatchGame for it, any match assignment it returns references a different
(open) Match, and if every Match of the state is done the response cannot
be a match assignment; in that case, whenever the dispatch preconditions
hold (an active run whose best network exists, and the identity passes the
get-or-create), the response is exactly the train assignment form and no
MatchGame is allocated. `hid` is the primary-key property of the match
table. -/
theorem done_match_excluded (s : ServerState) (req : NextWorkRequest)
    (m : Match) (_hm : m ∈ s.matchList) (hdone : m.done = true)
    (hid : ∀ m' ∈ s.matchList, m'.id = m.id → m' = m) :
    (∀ g ∈ (nextWork s req).1.matchGames, g ∉ s.matchGames → g.matchId ≠ m.id) ∧
    (∀ gid sha csha p f, (nextWork s req).2 = .matchWork gid sha csha p f →
       ∃ g, g ∈ (nextWork s req).1.matchGames ∧ g.id = gid ∧ g.matchId ≠ m.id) ∧
    ((∀ m' ∈ s.matchList, m'.done = true) →
       ∀ gid sha csha p f, (nextWork s req).2 ≠ .matchWork gid sha csha p f) ∧
    ((∀ m' ∈ s.matchList, m'.done = true) →
       ∀ run best, activeRun s = some run →
         findNetworkById s run.bestNetworkId = some best →
         (getOrCreateUser s req.user req.password
             (req.version.getD 0)).2.isSome = true →
         (nextWork s req).2 = .train run.id best.id best.sha
             (if req.version.getD 0 < minProtocolVersion then ""
              else req.contextParams) ∧
         (nextWork s req).1.matchGames = s.matchGames) := by
  rcases hrun : activeRun s with _ | run
  · have hE : nextWork s req = (s, .failure) := by
      simp only [nextWork, hrun]
    rw [hE]
    have hT := exclusion_of_trivial s s .failure m rfl
      (fun _ _ _ _ _ h => WorkResponse.noConfusion h)
    refine ⟨hT.1, hT.2.1, hT.2.2, ?_⟩
    intro _ run' best' hr _ _
    exact Option.noConfusion hr
  rcases hbest : findNetworkById s run.bestNetworkId with _ | best
  · have hE : nextWork s req = (s, .failure) := by
      simp only [nextWork, hrun, hbest]
    rw [hE]
    have hT := exclusion_of_trivial s s .failure m rfl
      (fun _ _ _ _ _ h => WorkResponse.noConfusion h)
    refine ⟨hT.1, hT.2.1, hT.2.2, ?_⟩
    intro _ run' best' hr hb _
    injection hr with hrr
    subst hrr
    rw [hbest] at hb
    exact Option.noConfusion hb
  by_cases hv : req.version.getD 0 < minProtocolVersion
  · have hE : nextWork s req = (s, .train run.id best.id best.sha "") := by
      simp only [nextWork, hrun, hbest, if_pos hv]
    rw [hE]
    have hT := exclusion_of_trivial s s (.train run.id best.id best.sha "") m
      rfl (fun _ _ _ _ _ h => WorkResponse.noConfusion h)
    refine ⟨hT.1, hT.2.1, hT.2.2, ?_⟩
    intro _ run' best' hr hb _
    injection hr with hrr
    subst hrr
    rw [hbest] at hb
    injection hb with hbb
    subst hbb
    rw [if_pos hv]
    exact ⟨rfl, rfl⟩
  rcases hu : getOrCreateUser s req.user req.password (req.version.getD 0)
    with ⟨s₁, o⟩
  have hs₁m : s₁.matchList = s.matchList := by
    have h := getOrCreateUser_matchList s req.user req.password (req.version.getD 0)
    rw [hu] at h
    exact h
  have hs₁g : s₁.matchGames = s.matchGames := by
    have h := getOrCreateUser_matchGames s req.user req.password (req.version.getD 0)
    rw [hu] at h
    exact h
  rcases o with _ | uid
  · have hE : nextWork s req = (s₁, .failure) := by
      simp only [nextWork, hrun, hbest, if_neg hv, hu]
    rw [hE]
    have hT := exclusion_of_trivial s s₁ .failure m hs₁g
      (fun _ _ _ _ _ h => WorkResponse.noConfusion h)
    refine ⟨hT.1, hT.2.1, hT.2.2, ?_⟩
    intro _ run' best' _ _ hauth
    exact absurd hauth Bool.false_ne_true
  rcases ho : openMatchFor s₁ run.id with _ | m₀
  · have hE : nextWork s req =
        (s₁, .train run.id best.id best.sha req.contextParams) := by
      simp only [nextWork, hrun, hbest, if_neg hv, hu, ho]
    rw [hE]
    have hT := exclusion_of_trivial s s₁
      (.train run.id best.id best.sha req.contextParams) m hs₁g
      (fun _ _ _ _ _ h => WorkResponse.noConfusion h)
    refine ⟨hT.1, hT.2.1, hT.2.2, ?_⟩
    intro _ run' best' hr hb _
    injection hr with hrr
    subst hrr
    rw [hbest] at hb
    injection hb with hbb
    subst hbb
    rw [if_neg hv]
    exact ⟨rfl, hs₁g⟩
  have hopen := openMatchFor_spec s₁ run.id m₀ ho
  have hne : m₀.id ≠ m.id := by
    intro he
    have h3 : m₀ = m := hid m₀ (hs₁m ▸ hopen.1) he
    rw [h3, hdone] at hopen
    simp at hopen
  have hallabs : ¬∀ m' ∈ s.matchList, m'.done = true := by
    intro hall
    have hdall := hall m₀ (hs₁m ▸ hopen.1)
    rw [hopen.2] at hdall
    exact Bool.false_ne_true hdall
  rcases hcb : findNetworkById s₁ m₀.currentBestId with _ | cb
  · have hE : nextWork s req = (s₁, .failure) := by
      simp only [nextWork, hrun, hbest, if_neg hv, hu, ho, hcb]
    rw [hE]
    have hT := exclusion_of_trivial s s₁ .failure m hs₁g
      (fun _ _ _ _ _ h => WorkResponse.noConfusion h)
    exact ⟨hT.1, hT.2.1, hT.2.2, fun hall => absurd hall hallabs⟩
  rcases hcand : findNetworkById s₁ m₀.candidateId with _ | cand
  · have hE : nextWork s req = (s₁, .failure) := by
      simp only [nextWork, hrun, hbest, if_neg hv, hu, ho, hcb, hcand]
    rw [hE]
    have hT := exclusion_of_trivial s s₁ .failure m hs₁g
      (fun _ _ _ _ _ h => WorkResponse.noConfusion h)
    exact ⟨hT.1, hT.2.1, hT.2.2, fun hall => absurd hall hallabs⟩
  have hE : nextWork s req =
      ({ s₁ with matchGames :=
           s₁.matchGames ++ [⟨nextMatchGameId s₁, m₀.id, none, "", false⟩] },
       .matchWork (nextMatchGameId s₁) cb.sha cand.sha m₀.parameters none) := by
    simp only [nextWork, hrun, hbest, if_neg hv, hu, ho, hcb, hcand]
  rw [hE]
  refine ⟨?_, ?_, ?_, fun hall => absurd hall hallabs⟩
  · intro g hg hgn
    simp only [List.mem_append, List.mem_singleton] at hg
    rcases hg with hg | hg
    · rw [hs₁g] at hg
      exact absurd hg hgn
    · rw [hg]
      exact hne
  · intro gid sha csha p f h
    have hgid : nextMatchGameId s₁ = gid := by
      injection h
    exact ⟨⟨nextMatchGameId s₁, m₀.id, none, "", false⟩,
      by simp, hgid, hne⟩
  · intro hall gid sha csha p f _
    exact absurd hall hallabs

/-- C4 witness: `TestNextGameUserMatchDone` — the only Match is done, so
the version-2 request gets no match assignment back: the response is the
Scenario-A train form and no MatchGame row is created. -/
theorem done_match_excluded_witness :
    (nextWork testStateDoneMatch reqV2).2 ≠
        .matchWork 1 "abcd" "efgh" "[\"--visits 10\"]" none ∧
    (nextWork testStateDoneMatch reqV2).2 = .train 1 1 "abcd" "" ∧
    (nextWork testStateDoneMatch reqV2).1.matchGames =
      testStateDoneMatch.matchGames := by
  have h := done_match_excluded testStateDoneMatch reqV2
      ⟨1, 1, "[\"--visits 10\"]", 2, 1, true⟩ (by decide) rfl (by decide)
  have h4 := h.2.2.2 (by decide) ⟨1, "Testing", 1, true⟩
      ⟨1, "abcd", "/tmp/network", 0⟩ (by decide) (by decide) (by decide)
  exact ⟨h.2.2.1 (by decide) 1 "abcd" "efgh" "[\"--visits 10\"]" none,
    h4.1, h4.2⟩

/-- C2: uploading content whose hash is not yet present succeeds, and
uploading the very same blob again on the resulting state fails with
AlreadyExists and returns that state untouched — no new Network row is
created and nothing in the blob store is overwritten. -/
theorem upload_dedup (hash : List Nat → String) (codec : Codec)
    (s : ServerState) (C : List Nat)
    (hfresh : s.networks.any
        (fun n => n.sha = hash (codec.decompress (codec.compress C))) = false) :
    (uploadNetwork hash codec s (codec.compress C)).2 =
        .uploaded (nextNetworkId s) ∧
    uploadNetwork hash codec (uploadNetwork hash codec s (codec.compress C)).1
        (codec.compress C) =
      ((uploadNetwork hash codec s (codec.compress C)).1, .alreadyExists) := by
  have h1 : uploadNetwork hash codec s (codec.compress C) =
      ({ s with
          networks := s.networks ++
            [⟨nextNetworkId s, hash (codec.decompress (codec.compress C)),
              "networks/" ++ hash (codec.decompress (codec.compress C)), 0⟩],
          blobs := (hash (codec.decompress (codec.compress C)),
            codec.decompress (codec.compress C)) :: s.blobs },
       .uploaded (nextNetworkId s)) := by
    unfold uploadNetwork
    rw [if_neg (by rw [hfresh]; exact Bool.false_ne_true)]
  refine ⟨by rw [h1], ?_⟩
  rw [h1]
  unfold uploadNetwork
  rw [if_pos (by simp [List.any_append])]

/-- C2 witness: a fresh two-byte content on the fixture state. -/
theorem upload_dedup_witness :
    (uploadNetwork listHash idCodec testState (idCodec.compress [1, 2])).2 =
        .uploaded (nextNetworkId testState) ∧
    uploadNetwork listHash idCodec
        (uploadNetwork listHash idCodec testState (idCodec.compress [1, 2])).1
        (idCodec.compress [1, 2]) =
      ((uploadNetwork listHash idCodec testState (idCodec.compress [1, 2])).1,
       .alreadyExists) :=
  upload_dedup listHash idCodec testState [1, 2] (by decide)

/-- C3: for content C whose compressed form uploads successfully,
downloading by the hash of C and decompressing the returned blob gives
back exactly C, provided the codec satisfies the gzip round-trip law. -/
theorem upload_download_roundtrip (hash : List Nat → String) (codec : Codec)
    (s s' : ServerState) (C : List Nat) (nid : Nat)
    (hcodec : ∀ b, codec.decompress (codec.compress b) = b)
    (hup : uploadNetwork hash codec s (codec.compress C) = (s', .uploaded nid)) :
    (downloadNetwork codec s' (hash C)).map codec.decompress = some C := by
  unfold uploadNetwork at hup
  rw [hcodec] at hup
  by_cases hdup : s.networks.any (fun n => n.sha = hash C) = true
  · rw [if_pos hdup] at hup
    exact absurd (congrArg Prod.snd hup) (by simp)
  · rw [if_neg hdup] at hup
    have hs' : s' = { s with
        networks := s.networks ++
          [⟨nextNetworkId s, hash C, "networks/" ++ hash C, 0⟩],
        blobs := (hash C, C) :: s.blobs } :=
      (congrArg Prod.fst hup).symm
    rw [hs']
    unfold downloadNetwork
    simp [List.find?, hcodec]

/-- C3 witness: uploading `[1,2,3]` through the identity codec and reading
it back by its hash. -/
theorem upload_download_roundtrip_witness :
    (downloadNetwork idCodec
        (uploadNetwork listHash idCodec testState
          (idCodec.compress [1, 2, 3])).1
        (listHash [1, 2, 3])).map idCodec.decompress = some [1, 2, 3] :=
  upload_download_roundtrip listHash idCodec testState
    (uploadNetwork listHash idCodec testState (idCodec.compress [1, 2, 3])).1
    [1, 2, 3] 2 (fun _ => rfl) (by decide)

/-- Looking up the incremented id after the counter bump finds the same row
with its counter one higher. -/
theorem find?_map_inc (l : List Network) (nid : Nat) :
    (l.map (fun n =>
        if n.id = nid then { n with gamesPlayed := n.gamesPlayed + 1 }
        else n)).find? (fun n => n.id = nid) =
      (l.find? (fun n => n.id = nid)).map
        (fun n => { n with gamesPlayed := n.gamesPlayed + 1 }) := by
  induction l with
  | nil => rfl
  | cons a t ih =>
    by_cases ha : a.id = nid
    · simp [List.find?, ha]
    · simp [List.find?, ha, ih]

/-- The counter bump leaves every row with a different id untouched. -/
theorem find?_map_inc_other (l : List Network) (nid other : Nat)
    (hne : other ≠ nid) :
    (l.map (fun n =>
        if n.id = nid then { n with gamesPlayed := n.gamesPlayed + 1 }
        else n)).find? (fun n => n.id = other) =
      l.find? (fun n => n.id = other) := by
  induction l with
  | nil => rfl
  | cons a t ih =>
    by_cases ha : a.id = other
    · have hanid : ¬a.id = nid := by rw [ha]; exact hne
      simp [List.find?, ha, hanid, hne]
    · by_cases hb : a.id = nid
      · have hno : ¬nid = other := by rw [← hb]; exact ha
        simp [List.find?, ha, hb, hno, ih]
      · simp [List.find?, ha, hb, ih]

/-- C6: a successful upload-game call citing a network increments exactly
that network's games-played counter by one, leaves every other network row
untouched, and a failed call (auth failure or unknown network) leaves the
whole network table — counters included — unchanged. -/
theorem upload_game_counter (s : ServerState) (username password : String)
    (version trainingId networkId : Nat) (pgn : String) :
    ((uploadGameServer s username password version trainingId networkId pgn).2
        = .ok →
      gamesPlayedOf
          (uploadGameServer s username password version trainingId networkId
            pgn).1 networkId =
        (gamesPlayedOf s networkId).map (fun c => c + 1) ∧
      ∀ other, other ≠ networkId →
        findNetworkById
            (uploadGameServer s username password version trainingId networkId
              pgn).1 other =
          findNetworkById s other) ∧
    ((uploadGameServer s username password version trainingId networkId pgn).2
        ≠ .ok →
      (uploadGameServer s username password version trainingId networkId
          pgn).1.networks = s.networks) := by
  rcases hu : getOrCreateUser s username password version with ⟨s₁, o⟩
  have hnet : s₁.networks = s.networks := by
    have h := getOrCreateUser_networks s username password version
    rw [hu] at h
    exact h
  rcases o with _ | uid
  · have hE : uploadGameServer s username password version trainingId
        networkId pgn = (s₁, .authFail) := by
      unfold uploadGameServer
      rw [hu]
    rw [hE]
    exact ⟨fun h => absurd h (by simp), fun _ => hnet⟩
  rcases hf : findNetworkById s₁ networkId with _ | n
  · have hE : uploadGameServer s username password version trainingId
        networkId pgn = (s₁, .notFound) := by
      unfold uploadGameServer
      rw [hu]
      simp only [hf]
    rw [hE]
    exact ⟨fun h => absurd h (by simp), fun _ => hnet⟩
  have hE : uploadGameServer s username password version trainingId
      networkId pgn =
      ({ s₁ with
          networks := s₁.networks.map (fun n =>
            if n.id = networkId then
              { n with gamesPlayed := n.gamesPlayed + 1 }
            else n),
          trainingGames := s₁.trainingGames ++
            [⟨nextTrainingGameId s₁, uid, trainingId, networkId, pgn⟩] },
       .ok) := by
    unfold uploadGameServer
    rw [hu]
    simp only [hf]
  rw [hE]
  refine ⟨fun _ => ⟨?_, ?_⟩, fun h => absurd rfl h⟩
  · unfold gamesPlayedOf findNetworkById
    simp only [find?_map_inc, hnet]
    cases s.networks.find? (fun n => n.id = networkId) <;> rfl
  · intro other hother
    unfold findNetworkById
    simp only [find?_map_inc_other _ _ _ hother, hnet]

/-- C6 witness: `TestUploadGameNewUser` — user "foo" is created, network 1's
counter goes from 0 to 1. -/
theorem upload_game_counter_witness :
    gamesPlayedOf
        (uploadGameServer testState "foo" "asdf" 1 1 1 "x").1 1 =
      (gamesPlayedOf testState 1).map (fun c => c + 1) :=
  ((upload_game_counter testState "foo" "asdf" 1 1 1 "x").1 (by decide)).1

/-- A successful non-clearing fetch keeps every previously cached artifact
and adds the requested one. -/
theorem getNetwork_no_evict (dl : String → Bool) (cache : List String)
    (sha : String) (h : (getNetwork dl cache sha false).2 = true) :
    sha ∈ (getNetwork dl cache sha false).1 ∧
    ∀ x ∈ cache, x ∈ (getNetwork dl cache sha false).1 := by
  unfold getNetwork at h ⊢
  by_cases hm : sha ∈ cache
  · simp [hm]
  · by_cases hd : dl sha
    · simp [hm, hd]
      intro x hx
      exact Or.inr hx
    · simp [hm, hd] at h

/-- C7 counterexample: a successful train-assignment fetch with the
assigned sha already cached returns at once without clearing — the stale
artifact "xxxx" is still cached and the cache does not hold exactly one
artifact afterwards. -/
theorem train_fetch_cache_counterexample :
    (getNetwork (fun _ => true) ["xxxx", "abcd"] "abcd" true).2 = true ∧
    "xxxx" ∈ (getNetwork (fun _ => true) ["xxxx", "abcd"] "abcd" true).1 ∧
    (getNetwork (fun _ => true) ["xxxx", "abcd"] "abcd" true).1.length ≠ 1 := by
  decide

/-- C7 amended: a train-assignment fetch clears the cache first and leaves
exactly the assigned artifact only when that artifact is not already
cached; if it is already cached the fetch returns the cache untouched,
stale entries included. A match-assignment fetch (`clearOld = false`)
never evicts: after the two fetches of `nextGame` both the current-best
and the candidate artifacts are cached. -/
theorem getNetwork_cache_policy (dl : String → Bool) (cache : List String)
    (sha sha2 : String) :
    (sha ∉ cache → dl sha = true → getNetwork dl cache sha true = ([sha], true)) ∧
    (sha ∈ cache → getNetwork dl cache sha true = (cache, true)) ∧
    ((getNetwork dl cache sha false).2 = true →
       sha ∈ (getNetwork dl cache sha false).1 ∧
       (∀ x ∈ cache, x ∈ (getNetwork dl cache sha false).1) ∧
       ((getNetwork dl (getNetwork dl cache sha false).1 sha2 false).2 = true →
          sha ∈ (getNetwork dl (getNetwork dl cache sha false).1 sha2 false).1 ∧
          sha2 ∈ (getNetwork dl (getNetwork dl cache sha false).1 sha2 false).1)) := by
  refine ⟨?_, ?_, ?_⟩
  · intro hm hd
    unfold getNetwork
    simp [hm, hd]
  · intro hm
    unfold getNetwork
    simp [hm]
  · intro h1
    obtain ⟨hin, hkeep⟩ := getNetwork_no_evict dl cache sha h1
    refine ⟨hin, hkeep, ?_⟩
    intro h2
    obtain ⟨hin2, hkeep2⟩ :=
      getNetwork_no_evict dl (getNetwork dl cache sha false).1 sha2 h2
    exact ⟨hkeep2 sha hin, hin2⟩

/-- C7 amended witness: fetching a not-yet-cached artifact for train work
clears the stale entry and leaves exactly the assigned one. -/
theorem getNetwork_cache_policy_witness :
    getNetwork (fun _ => true) ["xxxx"] "abcd" true = (["abcd"], true) :=
  (getNetwork_cache_policy (fun _ => true) ["xxxx"] "abcd" "efgh").1
    (by decide) rfl

/-- C5 counterexample: a work cycle in which the training engine exits
abnormally (`c.Cmd.Wait` returns an error) ends in `log.Fatal` — the
orchestrator process terminates instead of entering the backoff state, so
worker-side ProcessFailure is fatal, contrary to the claim. -/
theorem engine_crash_counterexample :
    (nextGameCycle envEngineCrash).outcome = .terminated ∧
    (nextGameCycle envEngineCrash).outcome ≠ .backedOff ∧
    mainStep (nextGameCycle envEngineCrash).outcome = .exitProcess := by
  decide

/-- C5 amended: worker-side TransportFailures — a failed next-work request
or a failed artifact download — are never fatal: each makes the cycle
return an error, which `main` answers with a 30-second sleep and a fresh
cycle, with no retry bound. Worker-side ProcessFailures, however, are
fatal: a pipe/start failure in `launch`, or an abnormal training-engine
exit, calls `log.Fatal` and terminates the orchestrator. -/
theorem worker_failure_policy (env : WorkerEnv) :
    (env.response = none → (nextGameCycle env).outcome = .backedOff) ∧
    (∀ r, env.response = some r → r.wtype = "train" →
       (getNetwork env.dl env.cache r.sha true).2 = false →
       (nextGameCycle env).outcome = .backedOff) ∧
    (∀ r, env.response = some r → r.wtype = "match" →
       (getNetwork env.dl env.cache r.sha false).2 = false →
       (nextGameCycle env).outcome = .backedOff) ∧
    (∀ r, env.response = some r → r.wtype = "match" →
       (getNetwork env.dl env.cache r.sha false).2 = true →
       (getNetwork env.dl (getNetwork env.dl env.cache r.sha false).1
           r.candidateSha false).2 = false →
       (nextGameCycle env).outcome = .backedOff) ∧
    (∀ r, env.response = some r → r.wtype = "train" →
       (getNetwork env.dl env.cache r.sha true).2 = true →
       env.pipesOk = false ∨ env.waitOk = false →
       (nextGameCycle env).outcome = .terminated) ∧
    (∀ r, env.response = some r → r.wtype = "match" →
       (getNetwork env.dl env.cache r.sha false).2 = true →
       (getNetwork env.dl (getNetwork env.dl env.cache r.sha false).1
           r.candidateSha false).2 = true →
       env.pipesOk = false →
       (nextGameCycle env).outcome = .terminated) ∧
    mainStep .backedOff = .sleepRetry 30 := by
  refine ⟨?_, ?_, ?_, ?_, ?_, ?_, rfl⟩
  · intro h
    simp [nextGameCycle, h]
  · intro r hr ht hf
    have hnm : ¬r.wtype = "match" := by rw [ht]; decide
    simp [nextGameCycle, hr, ht, hnm, hf]
  · intro r hr hmt hf
    simp [nextGameCycle, hr, hmt, hf]
  · intro r hr hmt hf1 hf2
    simp [nextGameCycle, hr, hmt, hf1, hf2]
  · intro r hr ht hf hpw
    have hnm : ¬r.wtype = "match" := by rw [ht]; decide
    rcases hpw with hp | hw
    · simp [nextGameCycle, hr, ht, hnm, hf, hp]
    · by_cases hp : env.pipesOk = false
      · simp [nextGameCycle, hr, ht, hnm, hf, hp]
      · simp [nextGameCycle, hr, ht, hnm, hf, hp, hw]
  · intro r hr hmt hf1 hf2 hp
    simp [nextGameCycle, hr, hmt, hf1, hf2, hp]

/-- C5 amended witness: a transport failure of the next-work request backs
off rather than terminating. -/
theorem worker_failure_policy_witness :
    (nextGameCycle envNoResp).outcome = .backedOff :=
  (worker_failure_policy envNoResp).1 rfl

/-- C9 counterexample: a cycle in which everything succeeds except the
training-data upload (`envUploadFail`) completes normally — the cycle does
not enter the backoff state, because `nextGame` discards `uploadGame`'s
error; the produced artifact is, as the claim says, not deleted. -/
theorem reporting_failure_counterexample :
    (nextGameCycle envUploadFail).outcome = .completed ∧
    (nextGameCycle envUploadFail).outcome ≠ .backedOff ∧
    (nextGameCycle envUploadFail).uploadAttempts = 1 ∧
    (nextGameCycle envUploadFail).artifactDeleted = false := by
  decide

/-- C9 amended: the cycle result never depends on whether the report
upload succeeds — `nextGame` ignores `uploadGame`'s return value — so a
failed training-data upload still yields a completed cycle (one upload
attempt, artifact kept, no backoff); and the match path never attempts a
report at all. -/
theorem reporting_failure_ignored (env : WorkerEnv) :
    (∀ b, nextGameCycle { env with uploadOk := b } = nextGameCycle env) ∧
    (∀ r, env.response = some r → r.wtype = "train" →
       (getNetwork env.dl env.cache r.sha true).2 = true →
       env.pipesOk = true → env.waitOk = true →
       nextGameCycle env =
         ⟨.completed, (getNetwork env.dl env.cache r.sha true).1, 1, 1, 1,
          false⟩) ∧
    (∀ r, env.response = some r → r.wtype = "match" →
       (nextGameCycle env).uploadAttempts = 0) := by
  refine ⟨fun b => rfl, ?_, ?_⟩
  · intro r hr ht hf hp hw
    have hnm : ¬r.wtype = "match" := by rw [ht]; decide
    simp [nextGameCycle, hr, ht, hnm, hf, hp, hw]
  · intro r hr hmt
    simp only [nextGameCycle, hr, hmt, if_pos]
    split
    · rfl
    · split
      · rfl
      · split <;> rfl

/-- C9 amended witness: the concrete failed-upload cycle. -/
theorem reporting_failure_ignored_witness :
    nextGameCycle envUploadFail =
      ⟨.completed, ["abcd"], 1, 1, 1, false⟩ :=
  (reporting_failure_ignored envUploadFail).2.1 trainWorkResp rfl rfl
    (by decide) rfl rfl

/-- C10: an assignment whose work type is neither "train" nor "match"
makes `nextGame` return an error before fetching any artifact or launching
any engine, and `main` answers the error with a 30-second sleep and
another cycle — the process does not exit. -/
theorem unknown_type_rejected (env : WorkerEnv) (r : NextGameResponse)
    (hr : env.response = some r) (hm : r.wtype ≠ "match")
    (ht : r.wtype ≠ "train") :
    nextGameCycle env = ⟨.backedOff, env.cache, 0, 0, 0, false⟩ ∧
    mainStep (nextGameCycle env).outcome = .sleepRetry 30 ∧
    mainStep (nextGameCycle env).outcome ≠ .exitProcess := by
  have h1 : nextGameCycle env = ⟨.backedOff, env.cache, 0, 0, 0, false⟩ := by
    simp [nextGameCycle, hr, hm, ht]
  refine ⟨h1, by rw [h1]; rfl, by rw [h1]; simp [mainStep]⟩

/-- C10 witness: a cycle handed the unknown work type "foo". -/
theorem unknown_type_rejected_witness :
    nextGameCycle envUnknownType =
      ⟨.backedOff, ["x"], 0, 0, 0, false⟩ :=
  (unknown_type_rejected envUnknownType ⟨"foo", 1, 1, "abcd", "", [], false⟩
      rfl (by decide) (by decide)).1

end LeelaChess
